import Mathlib

/-!
Verification of the natural-language specification of the silx boundary-aware
median filter engine (1-D and 2-D arrays, four boundary modes, conditional
write policy) against the repository.  The production engine itself
(`silx.math.medianfilter.medianfilter`, a compiled extension) is not part of
the sampled sources; only its test suite
(`silx/math/medianfilter/test/test_medianfilter.py`) is.  The engine and the
boundary index resolvers are therefore modelled from the specification, and
every concrete expectation recorded in the test suite is replayed against the
model below.
-/

namespace MedianFilter

/-- Modelled from the spec: the boundary-extension policy, an enumerated value
`nearest`, `reflect`, `mirror`, `shrink`, fixed for the whole call. -/
inductive Mode : Type
  | nearest
  | reflect
  | mirror
  | shrink
deriving DecidableEq

/-- Modelled from the spec: a rectangular 1-D or 2-D buffer of homogeneous
numeric elements, row-major, with `data.length = rows * cols` for well-formed
images.  A 1-D array of length `n` is the degenerate image with `rows = 1`,
`cols = n`. -/
structure Image (α : Type) : Type where
  rows : Nat
  cols : Nat
  data : List α
deriving DecidableEq

/-- Row-major element access, with a default for out-of-range indices (never
reached on well-formed images with in-range coordinates). -/
def Image.get {α : Type} [Inhabited α] (img : Image α) (r c : Nat) : α :=
  img.data.getD (r * img.cols + c) default

/-- Modelled from the spec: `nearest(c, n)` clamps the coordinate to
`[0, n-1]`; always resolves. -/
def nearest (c : Int) (n : Nat) : Int :=
  if c < 0 then 0 else if (n : Int) ≤ c then (n : Int) - 1 else c

/-- Modelled from the spec: `reflect(c, n)` reflects about the boundary
without repeating the edge element — period `2n`; for `c` folded into
`[0, 2n)`, if folded `< n` return folded, else return `2n - 1 - folded`. -/
def reflect (c : Int) (n : Nat) : Int :=
  if c % (2 * (n : Int)) < (n : Int) then c % (2 * (n : Int))
  else 2 * (n : Int) - 1 - c % (2 * (n : Int))

/-- Modelled from the spec: `mirror(c, n)` reflects about the boundary
including repetition of the edge element — period `2n-2`; fold `c` into
`[0, 2n-2)`, if folded `< n` return folded else return `2n-2-folded`. -/
def mirror (c : Int) (n : Nat) : Int :=
  if c % (2 * (n : Int) - 2) < (n : Int) then c % (2 * (n : Int) - 2)
  else 2 * (n : Int) - 2 - c % (2 * (n : Int) - 2)

/-- Modelled from the spec: resolve one axis coordinate per boundary mode;
`shrink` resolves out-of-range coordinates to the sentinel "no contribution"
(`none`), the other three modes always resolve. -/
def resolve (m : Mode) (c : Int) (n : Nat) : Option Nat :=
  match m with
  | Mode.nearest => some (nearest c n).toNat
  | Mode.reflect => some (reflect c n).toNat
  | Mode.mirror => some (mirror c n).toNat
  | Mode.shrink => if 0 ≤ c ∧ c < (n : Int) then some c.toNat else none

/-- Insertion of an element into a sorted list, keeping it sorted. -/
def insertSorted {α : Type} [LinearOrder α] (x : α) : List α → List α
  | [] => [x]
  | y :: ys => if x ≤ y then x :: y :: ys else y :: insertSorted x ys

/-- Insertion sort, used to read off order statistics of a working window. -/
def sortList {α : Type} [LinearOrder α] : List α → List α
  | [] => []
  | x :: xs => insertSorted x (sortList xs)

/-- Modelled from the spec (even-count rule taken from the expectations of
`TestMedianFilterShrink.testRandomInt` in the sampled test suite): the median
of a working window is the order statistic at 0-based index `count / 2` of
the sorted values — the single middle value for an odd count, the
upper-middle value for an even count. -/
def median {α : Type} [LinearOrder α] [Inhabited α] (l : List α) : α :=
  (sortList l).getD (l.length / 2) default

/-- Modelled from the spec: gather the kernel-sized neighborhood centered on
`(r, c)` — `kh * kw` offsets, each axis resolved independently; a neighbor is
excluded entirely when any axis resolves to "no contribution". -/
def window {α : Type} [Inhabited α] (m : Mode) (img : Image α)
    (r c kh kw : Nat) : List α :=
  (List.range (kh * kw)).filterMap (fun t =>
    let i := t / kw
    let j := t % kw
    match resolve m ((r : Int) + (i : Int) - ((kh / 2 : Nat) : Int)) img.rows,
          resolve m ((c : Int) + (j : Int) - ((kw / 2 : Nat) : Int)) img.cols with
    | some ri, some ci => some (img.get ri ci)
    | _, _ => none)

/-- Modelled from the spec: the value written at flat position `p`: the
neighborhood median; under the conditional flag, the pass-through input value
whenever the computed median equals the input value at `p`. -/
def pixelOut {α : Type} [LinearOrder α] [DecidableEq α] [Inhabited α]
    (img : Image α) (kh kw : Nat) (conditional : Bool) (m : Mode)
    (p : Nat) : α :=
  let r := p / img.cols
  let c := p % img.cols
  let med := median (window m img r c kh kw)
  if conditional = true ∧ med = img.get r c then img.get r c else med

/-- Modelled from the spec: the 2-D median filter — a newly allocated output
of the same shape, each position filled independently from the read-only
input. -/
def medfilt2d {α : Type} [LinearOrder α] [DecidableEq α] [Inhabited α]
    (img : Image α) (kh kw : Nat) (conditional : Bool) (m : Mode) :
    Image α :=
  { rows := img.rows
    cols := img.cols
    data := (List.range (img.rows * img.cols)).map
      (pixelOut img kh kw conditional m) }

/-- Modelled from the spec: the 1-D entry point — a 1-D array with a bare
scalar kernel size is filtered as the `1 × n` image with a `1 × k` kernel. -/
def medfilt1d {α : Type} [LinearOrder α] [DecidableEq α] [Inhabited α]
    (l : List α) (k : Nat) (conditional : Bool) (m : Mode) : List α :=
  (medfilt2d (Image.mk 1 l.length l) 1 k conditional m).data

/-- Modelled from the spec: one step of the filtering loop over output
positions — reads the input buffer, writes one cell of the output buffer. -/
def writeStep {α : Type} [LinearOrder α] [DecidableEq α] [Inhabited α]
    (kh kw : Nat) (conditional : Bool) (m : Mode)
    (st : Image α × List α) (p : Nat) : Image α × List α :=
  (st.1, st.2.set p (pixelOut st.1 kh kw conditional m p))

/-- Modelled from the spec: the imperative view of the engine — allocate an
output buffer, then loop row-major over all flat positions, writing each
output cell from the read-only input; returns the (input, output) buffer
pair. -/
def medfilt2dRun {α : Type} [LinearOrder α] [DecidableEq α] [Inhabited α]
    (img : Image α) (kh kw : Nat) (conditional : Bool) (m : Mode) :
    Image α × List α :=
  (List.range (img.rows * img.cols)).foldl (writeStep kh kw conditional m)
    (img, List.replicate (img.rows * img.cols) default)

/-- Modelled from the spec: the even-count median as the spec words it — the
mean of the two central order statistics (lower-middle and upper-middle),
with integer truncation of that mean; the single middle value for an odd
count.  Kept separate from `median` for comparison: the sampled test
expectations contradict this averaging rule. -/
def medianAvg (l : List Int) : Int :=
  let s := sortList l
  if l.length % 2 = 1 then s.getD (l.length / 2) 0
  else (s.getD (l.length / 2 - 1) 0 + s.getD (l.length / 2) 0) / 2

/-- The variant engine whose even-count median follows the spec's averaging
words, used to exhibit the divergence from the recorded test expectations. -/
def pixelOutAvg (img : Image Int) (kh kw : Nat) (conditional : Bool)
    (m : Mode) (p : Nat) : Int :=
  let r := p / img.cols
  let c := p % img.cols
  let med := medianAvg (window m img r c kh kw)
  if conditional = true ∧ med = img.get r c then img.get r c else med

/-- The 2-D filter built on the averaging median of the spec's words. -/
def medfilt2dAvg (img : Image Int) (kh kw : Nat) (conditional : Bool)
    (m : Mode) : Image Int :=
  { rows := img.rows
    cols := img.cols
    data := (List.range (img.rows * img.cols)).map
      (pixelOutAvg img kh kw conditional m) }

/-- The fixed 4×5 integer matrix `RANDOM_INT_MAT` of the test suite. -/
def randomIntMat : Image Int :=
  Image.mk 4 5
    [0, 5, 2, 6, 1,
     2, 3, 1, 7, 1,
     9, 8, 6, 7, 8,
     5, 6, 8, 2, 4]

/-- The expected output of `testRandomInt` (shrink, kernel 3×3) recorded in
the test suite. -/
def randomIntShrink33Expected : Image Int :=
  Image.mk 4 5
    [3, 2, 5, 2, 6,
     5, 3, 6, 6, 7,
     6, 6, 6, 6, 7,
     8, 8, 7, 7, 7]

/-- The expected output of `testBounds` (shrink, kernels 1×9, 1×11, 1×21)
recorded in the test suite. -/
def boundsExpected : Image Int :=
  Image.mk 4 5
    [2, 2, 2, 2, 2,
     2, 2, 2, 2, 2,
     8, 8, 8, 8, 8,
     5, 5, 5, 5, 5]

/-- The 10×10 int32 image holding 0..99 row-major, as in the nearest-mode
scenario tests. -/
def arangeImg : Image Int :=
  Image.mk 10 10 ((List.range 100).map (fun k => (k : Int)))

/-- The 1-D int32 array 0..99, as in `testFilter3_1D`. -/
def arangeList : List Int :=
  (List.range 100).map (fun k => (k : Int))

/-- Reading every index of a list back through `getD` over `range` rebuilds
the list. -/
theorem getD_map_range {α : Type} (l : List α) (d : α) :
    (List.range l.length).map (fun i => l.getD i d) = l := by
  induction l with
  | nil => rfl
  | cons a l ih =>
    have hcomp : ((fun i => (a :: l).getD i d) ∘ Nat.succ) =
        (fun i => l.getD i d) := rfl
    rw [List.length_cons, List.range_succ_eq_map, List.map_cons,
      List.map_map, hcomp, ih]
    rfl

/-- Every boundary mode resolves an in-range coordinate to itself. -/
theorem resolve_in_range (m : Mode) (r n : Nat) (h : r < n) :
    resolve m (r : Int) n = some r := by
  have h0 : (0 : Int) ≤ (r : Int) := Int.natCast_nonneg r
  have hlt : (r : Int) < (n : Int) := by exact_mod_cast h
  cases m with
  | nearest =>
    simp only [resolve, nearest]
    rw [if_neg (by omega), if_neg (by omega), Int.toNat_natCast]
  | reflect =>
    have hfold : (r : Int) % (2 * (n : Int)) = (r : Int) :=
      Int.emod_eq_of_lt h0 (by omega)
    simp only [resolve, reflect, hfold]
    rw [if_pos hlt, Int.toNat_natCast]
  | mirror =>
    rcases Nat.lt_or_ge n 2 with h2 | h2
    · have hn : n = 1 := by omega
      have hr : r = 0 := by omega
      subst hn
      subst hr
      simp only [resolve, mirror]
      norm_num
    · have hfold : (r : Int) % (2 * (n : Int) - 2) = (r : Int) :=
        Int.emod_eq_of_lt h0 (by omega)
      simp only [resolve, mirror, hfold]
      rw [if_pos hlt, Int.toNat_natCast]
  | shrink =>
    simp only [resolve]
    rw [if_pos ⟨h0, hlt⟩, Int.toNat_natCast]

/-- A unit kernel gathers exactly the center element, in every mode. -/
theorem window_unit {α : Type} [Inhabited α] (m : Mode) (img : Image α)
    (r c : Nat) (hr : r < img.rows) (hc : c < img.cols) :
    window m img r c 1 1 = [img.get r c] := by
  have h1 := resolve_in_range m r img.rows hr
  have h2 := resolve_in_range m c img.cols hc
  unfold window
  rw [one_mul, show List.range 1 = [0] from rfl]
  rw [List.filterMap_cons, List.filterMap_nil]
  norm_num
  rw [h1, h2]

/-- The median of a single-element window is that element. -/
theorem median_singleton {α : Type} [LinearOrder α] [Inhabited α] (v : α) :
    median [v] = v := by
  simp [median, sortList, insertSorted]

/-- With a unit kernel, every output pixel is exactly the input pixel,
under either value of the conditional flag. -/
theorem pixelOut_unit {α : Type} [LinearOrder α] [DecidableEq α]
    [Inhabited α] (img : Image α) (cond : Bool) (m : Mode) (p : Nat)
    (hr : p / img.cols < img.rows) (hc : p % img.cols < img.cols) :
    pixelOut img 1 1 cond m p = img.get (p / img.cols) (p % img.cols) := by
  simp only [pixelOut]
  rw [window_unit m img _ _ hr hc, median_singleton]
  split <;> rfl

/-- The filtering loop never touches the input buffer: the first component
of the state is invariant across any list of write steps. -/
theorem foldl_writeStep_fst {α : Type} [LinearOrder α] [DecidableEq α]
    [Inhabited α] (kh kw : Nat) (cond : Bool) (m : Mode) :
    ∀ (ps : List Nat) (st : Image α × List α),
      (ps.foldl (writeStep kh kw cond m) st).1 = st.1 := by
  intro ps
  induction ps with
  | nil => intro st; rfl
  | cons p ps ih =>
    intro st
    rw [List.foldl_cons, ih]
    rfl

/-- The output buffer of the filtering loop is the same as folding plain
writes of the per-pixel values, since the input component never changes. -/
theorem foldl_writeStep_snd {α : Type} [LinearOrder α] [DecidableEq α]
    [Inhabited α] (kh kw : Nat) (cond : Bool) (m : Mode) (img : Image α) :
    ∀ (ps : List Nat) (out : List α),
      (ps.foldl (writeStep kh kw cond m) (img, out)).2 =
        ps.foldl (fun o p => o.set p (pixelOut img kh kw cond m p)) out := by
  intro ps
  induction ps with
  | nil => intro out; rfl
  | cons p ps ih =>
    intro out
    rw [List.foldl_cons, List.foldl_cons]
    exact ih _

/-- Writing `f p` at every position `p` of `range k` into a buffer of
sufficient length replaces its first `k` cells with `map f (range k)`. -/
theorem foldl_set_range {α : Type} (f : Nat → α) :
    ∀ (k : Nat) (out : List α), k ≤ out.length →
      (List.range k).foldl (fun o p => o.set p (f p)) out =
        (List.range k).map f ++ out.drop k := by
  intro k
  induction k with
  | zero =>
    intro out _
    simp
  | succ k ih =>
    intro out hk
    have hklt : k < out.length := by omega
    rw [List.range_succ, List.foldl_append, List.map_append, ih out (by omega)]
    rw [List.foldl_cons, List.foldl_nil]
    rw [List.set_append]
    simp only [List.length_map, List.length_range]
    rw [if_neg (Nat.lt_irrefl k), Nat.sub_self, List.append_assoc]
    congr 1
    rw [← List.getElem_cons_drop out k hklt]
    rfl

/-- The imperative filtering loop produces exactly the functional filter's
output buffer. -/
theorem medfilt2dRun_eq {α : Type} [LinearOrder α] [DecidableEq α]
    [Inhabited α] (img : Image α) (kh kw : Nat) (cond : Bool) (m : Mode) :
    (medfilt2dRun img kh kw cond m).2 = (medfilt2d img kh kw cond m).data := by
  unfold medfilt2dRun medfilt2d
  rw [foldl_writeStep_snd kh kw cond m img]
  rw [foldl_set_range (pixelOut img kh kw cond m) (img.rows * img.cols) _
    (by simp)]
  simp

/-- C1: for every input array, kernel size and boundary mode, the result
with the conditional flag true is pixel-for-pixel equal in numeric value to
the result with the conditional flag false: when conditional, an output
element is the computed median exactly when that median differs from the
input value at that position, and the pass-through input value otherwise,
which is numerically the same thing. -/
theorem conditional_write_equivalence {α : Type} [LinearOrder α]
    [DecidableEq α] [Inhabited α] (img : Image α) (kh kw : Nat) (m : Mode) :
    (∀ p : Nat, pixelOut img kh kw true m p =
      if median (window m img (p / img.cols) (p % img.cols) kh kw) =
          img.get (p / img.cols) (p % img.cols)
        then img.get (p / img.cols) (p % img.cols)
        else median (window m img (p / img.cols) (p % img.cols) kh kw)) ∧
    medfilt2d img kh kw true m = medfilt2d img kh kw false m := by
  constructor
  · intro p
    simp [pixelOut]
  · have hpix : ∀ p : Nat,
        pixelOut img kh kw true m p = pixelOut img kh kw false m p := by
      intro p
      unfold pixelOut
      by_cases h : median (window m img (p / img.cols) (p % img.cols) kh kw) =
          img.get (p / img.cols) (p % img.cols)
      · simp [h]
      · simp [h]
    unfold medfilt2d
    rw [funext hpix]

/-- C3: the reflect resolver folds any integer coordinate into `[0, 2n)`
modulo the period `2n` and returns the fold if it is below `n`, else
`2n - 1 - fold`; in particular, for axis extent 3 it maps 3,4,5,6,7 to
2,1,0,0,1 and -1..-7 to 0,1,2,2,1,0,0. -/
theorem reflect_resolver_spec :
    (∀ (c : Int) (n : Nat), 0 < n →
      reflect c n = if c % (2 * (n : Int)) < (n : Int) then c % (2 * (n : Int))
        else 2 * (n : Int) - 1 - c % (2 * (n : Int))) ∧
    reflect 3 3 = 2 ∧ reflect 4 3 = 1 ∧ reflect 5 3 = 0 ∧
    reflect 6 3 = 0 ∧ reflect 7 3 = 1 ∧
    reflect (-1) 3 = 0 ∧ reflect (-2) 3 = 1 ∧ reflect (-3) 3 = 2 ∧
    reflect (-4) 3 = 2 ∧ reflect (-5) 3 = 1 ∧ reflect (-6) 3 = 0 ∧
    reflect (-7) 3 = 0 :=
  ⟨fun _ _ _ => rfl, by decide⟩

/-- Witness for C3: the reflect fold formula instantiated at coordinate 7
and extent 3. -/
theorem reflect_resolver_spec_witness :
    reflect 7 3 = if (7 : Int) % (2 * ((3 : Nat) : Int)) < ((3 : Nat) : Int)
      then (7 : Int) % (2 * ((3 : Nat) : Int))
      else 2 * ((3 : Nat) : Int) - 1 - (7 : Int) % (2 * ((3 : Nat) : Int)) :=
  reflect_resolver_spec.1 7 3 (by decide)

/-- C4: the mirror resolver folds any integer coordinate into `[0, 2n-2)`
modulo the period `2n-2` and returns the fold if it is below `n`, else
`2n - 2 - fold`; in particular, for axis extent 4 it maps 4,5,6,7,8 to
2,1,0,1,2 and -1..-6 to 1,2,3,2,1,0. -/
theorem mirror_resolver_spec :
    (∀ (c : Int) (n : Nat), 0 < 2 * n - 2 →
      mirror c n = if c % (2 * (n : Int) - 2) < (n : Int)
        then c % (2 * (n : Int) - 2)
        else 2 * (n : Int) - 2 - c % (2 * (n : Int) - 2)) ∧
    mirror 4 4 = 2 ∧ mirror 5 4 = 1 ∧ mirror 6 4 = 0 ∧
    mirror 7 4 = 1 ∧ mirror 8 4 = 2 ∧
    mirror (-1) 4 = 1 ∧ mirror (-2) 4 = 2 ∧ mirror (-3) 4 = 3 ∧
    mirror (-4) 4 = 2 ∧ mirror (-5) 4 = 1 ∧ mirror (-6) 4 = 0 :=
  ⟨fun _ _ _ => rfl, by decide⟩

/-- Witness for C4: the mirror fold formula instantiated at coordinate 8
and extent 4. -/
theorem mirror_resolver_spec_witness :
    mirror 8 4 = if (8 : Int) % (2 * ((4 : Nat) : Int) - 2) < ((4 : Nat) : Int)
      then (8 : Int) % (2 * ((4 : Nat) : Int) - 2)
      else 2 * ((4 : Nat) : Int) - 2 - (8 : Int) % (2 * ((4 : Nat) : Int) - 2) :=
  mirror_resolver_spec.1 8 4 (by decide)

/-- C6: the filter never mutates its input: after the full writing loop over
all output positions, the input buffer of the state is identical to the
original input, for every input, kernel, conditional flag and mode. -/
theorem input_not_mutated {α : Type} [LinearOrder α] [DecidableEq α]
    [Inhabited α] (img : Image α) (kh kw : Nat) (cond : Bool) (m : Mode) :
    (medfilt2dRun img kh kw cond m).1 = img := by
  unfold medfilt2dRun
  exact foldl_writeStep_fst kh kw cond m _ _

/-- Filtering a well-formed image with the unit kernel is the identity, for
every boundary mode and either value of the conditional flag. -/
theorem medfilt2d_unit_id {α : Type} [LinearOrder α] [DecidableEq α]
    [Inhabited α] (img : Image α) (cond : Bool) (m : Mode)
    (h : img.data.length = img.rows * img.cols) :
    medfilt2d img 1 1 cond m = img := by
  obtain ⟨rows, cols, data⟩ := img
  simp only [medfilt2d]
  have hmap : ∀ p ∈ List.range (rows * cols),
      pixelOut (Image.mk rows cols data) 1 1 cond m p =
        data.getD p default := by
    intro p hp
    rw [List.mem_range] at hp
    have hcols : 0 < cols := by
      rcases Nat.eq_zero_or_pos cols with h0 | h0
      · subst h0
        simp at hp
      · exact h0
    have hr : p / cols < rows := (Nat.div_lt_iff_lt_mul hcols).mpr hp
    have hc : p % cols < cols := Nat.mod_lt _ hcols
    rw [pixelOut_unit (Image.mk rows cols data) cond m p hr hc]
    simp only [Image.get]
    have hidx : p / cols * cols + p % cols = p := Nat.div_add_mod' p cols
    rw [hidx]
  have hdata : (List.range (rows * cols)).map
      (pixelOut (Image.mk rows cols data) 1 1 cond m) = data := by
    rw [List.map_congr_left hmap, ← h]
    exact getD_map_range data default
  rw [hdata]

/-- C5: filtering with a unit kernel — kernel size 1×1 in 2-D or 1 in 1-D —
returns an output exactly equal to the input, for every well-formed input
array, every boundary mode and either value of the conditional flag (the
neighborhood of every position is the single element at that position). -/
theorem unit_kernel_identity :
    (∀ {α : Type} [LinearOrder α] [DecidableEq α] [Inhabited α]
      (img : Image α) (cond : Bool) (m : Mode),
      img.data.length = img.rows * img.cols →
      medfilt2d img 1 1 cond m = img) ∧
    (∀ {α : Type} [LinearOrder α] [DecidableEq α] [Inhabited α]
      (l : List α) (cond : Bool) (m : Mode),
      medfilt1d l 1 cond m = l) := by
  have h2 : ∀ {α : Type} [LinearOrder α] [DecidableEq α] [Inhabited α]
      (img : Image α) (cond : Bool) (m : Mode),
      img.data.length = img.rows * img.cols →
      medfilt2d img 1 1 cond m = img := by
    intro α _ _ _ img cond m h
    exact medfilt2d_unit_id img cond m h
  refine ⟨h2, ?_⟩
  intro α _ _ _ l cond m
  unfold medfilt1d
  rw [h2 (Image.mk 1 l.length l) cond m (by simp)]

/-- Witness for C5: the unit kernel is the identity on the concrete 4×5
integer matrix of the test suite, in mirror mode with the conditional flag
set. -/
theorem unit_kernel_identity_witness :
    medfilt2d randomIntMat 1 1 true Mode.mirror = randomIntMat :=
  unit_kernel_identity.1 randomIntMat true Mode.mirror (by decide)

/-- C7: for every valid call, over every boundary mode, kernel size and
element type, the returned array has exactly the input's shape (row count,
column count and buffer length); the element type is preserved by the
signature `Image α → Image α` itself. -/
theorem shape_and_size_preserved {α : Type} [LinearOrder α] [DecidableEq α]
    [Inhabited α] (img : Image α) (kh kw : Nat) (cond : Bool) (m : Mode)
    (h : img.data.length = img.rows * img.cols) :
    (medfilt2d img kh kw cond m).rows = img.rows ∧
    (medfilt2d img kh kw cond m).cols = img.cols ∧
    (medfilt2d img kh kw cond m).data.length = img.data.length := by
  refine ⟨rfl, rfl, ?_⟩
  simp [medfilt2d, h]

/-- Witness for C7: shape preservation on the concrete 4×5 integer matrix
with a 3×3 kernel in shrink mode. -/
theorem shape_and_size_preserved_witness :
    (medfilt2d randomIntMat 3 3 false Mode.shrink).rows = randomIntMat.rows ∧
    (medfilt2d randomIntMat 3 3 false Mode.shrink).cols = randomIntMat.cols ∧
    (medfilt2d randomIntMat 3 3 false Mode.shrink).data.length =
      randomIntMat.data.length :=
  shape_and_size_preserved randomIntMat 3 3 false Mode.shrink (by decide)

/-- Counterexample for C2: at position (0,2) of the 4×5 integer test matrix
under shrink mode with a 3×3 kernel, the working window holds the six values
5,2,6,3,1,7 whose two central order statistics are 3 and 5 with mean 4; the
averaging engine of the spec's words therefore yields 4 there, while the
expected output recorded by the test suite is 5, which is what the
upper-middle engine produces on the whole matrix. -/
theorem even_count_mean_counterexample :
    (medfilt2dAvg randomIntMat 3 3 false Mode.shrink).get 0 2 = 4 ∧
    randomIntShrink33Expected.get 0 2 = 5 ∧
    medfilt2d randomIntMat 3 3 false Mode.shrink =
      randomIntShrink33Expected := by
  decide

/-- C2 (amended): whenever the working neighborhood holds an even count of
values (possible under shrink mode at edges, e.g. the six-element window at
position (0,2) of the 4×5 test matrix), the computed median is the
upper-middle order statistic — the 0-based index `count / 2` of the sorted
values — not the mean of the two central order statistics; with this rule
the engine reproduces the full expected shrink 3×3 output of the test
suite. -/
theorem even_count_median_upper_middle :
    (∀ l : List Int, l.length % 2 = 0 →
      median l = (sortList l).getD (l.length / 2) 0) ∧
    (window Mode.shrink randomIntMat 0 2 3 3).length = 6 ∧
    median (window Mode.shrink randomIntMat 0 2 3 3) = 5 ∧
    medfilt2d randomIntMat 3 3 false Mode.shrink =
      randomIntShrink33Expected := by
  refine ⟨fun l _ => rfl, by decide, by decide, by decide⟩

/-- Witness for C2 (amended): the even-count rule evaluated on the concrete
four-element window 0,2,3,5, whose median is the upper-middle value 3. -/
theorem even_count_median_upper_middle_witness :
    median ([0, 2, 3, 5] : List Int) =
      (sortList ([0, 2, 3, 5] : List Int)).getD
        (([0, 2, 3, 5] : List Int).length / 2) 0 :=
  even_count_median_upper_middle.1 [0, 2, 3, 5] (by decide)

/-- C8: on the fixed 4×5 integer matrix, shrink-mode filtering with kernels
1×9, 1×11 and 1×21 produces three identical outputs, each row constant and
equal to its row median, because the shrunken neighborhood saturates to the
whole row once the kernel half-width reaches the column count. -/
theorem shrink_bounds_agree :
    medfilt2d randomIntMat 1 9 false Mode.shrink = boundsExpected ∧
    medfilt2d randomIntMat 1 11 false Mode.shrink = boundsExpected ∧
    medfilt2d randomIntMat 1 21 false Mode.shrink = boundsExpected := by
  decide

/-- C9: filtering the int32 10×10 row-major array of 0..99 with a 3×3
kernel in nearest mode, unconditional, yields the seven spot values recorded
by the test suite. -/
theorem nearest_scenario_10x10 :
    (medfilt2d arangeImg 3 3 false Mode.nearest).get 0 0 = 1 ∧
    (medfilt2d arangeImg 3 3 false Mode.nearest).get 9 0 = 90 ∧
    (medfilt2d arangeImg 3 3 false Mode.nearest).get 9 9 = 98 ∧
    (medfilt2d arangeImg 3 3 false Mode.nearest).get 0 9 = 9 ∧
    (medfilt2d arangeImg 3 3 false Mode.nearest).get 0 4 = 5 ∧
    (medfilt2d arangeImg 3 3 false Mode.nearest).get 9 4 = 93 ∧
    (medfilt2d arangeImg 3 3 false Mode.nearest).get 4 4 = 44 := by
  decide

/-- C10: the 1-D entry point with a bare scalar kernel size: the int32 array
0..99 filtered with kernel 5 in nearest mode, unconditional, is unchanged at
positions 0, 9 and 99 — the clamped window there has the center element as
its median on this strictly increasing input. -/
theorem oneD_scalar_kernel_scenario :
    (medfilt1d arangeList 5 false Mode.nearest).getD 0 0 = 0 ∧
    (medfilt1d arangeList 5 false Mode.nearest).getD 9 0 = 9 ∧
    (medfilt1d arangeList 5 false Mode.nearest).getD 99 0 = 99 := by
  decide

end MedianFilter
